import Mathlib

/-!
# The request dispatcher of lc-sdk-go (`internal/web_api.go`)

A shallow embedding of the `api` client: `NewAPI`, `Call`, `SetCustomHeader`,
`SetCustomHost`, `UploadFile`, `send` and `DefaultHTTPRequestGenerator`.

Effects are made explicit.  A run of `Call` or `UploadFile` yields an `Outcome`
that records the returned error, the response slot, the invocations of the
request generator and the requests handed to the HTTP transport.  Everything
the Go code obtains from outside the file (the transport, `encoding/json`,
`mime/multipart`, `url.Parse`) is a parameter; `net/http`'s header map is
modelled concretely.
-/

namespace LcSdk

/-! ## Byte strings and errors -/

/-- Byte sequences (`[]byte`, and `string` in Go); no arithmetic is done on them. -/
abbrev Bytes := String

/-- The text of an error value produced outside this file (transport, JSON, multipart, URL). -/
abbrev ForeignErr := String

/-! ## `net/http` header maps -/

/-- The bytes `textproto` accepts in a header field name (RFC 7230 token characters). -/
def validHeaderFieldByte (c : Char) : Bool :=
  c.isAlphanum || [33, 35, 36, 37, 38, 39, 42, 43, 45, 46, 94, 95, 96, 124, 126].contains c.toNat

/-- The letter loop of `textproto.canonicalMIMEHeaderKey`: upper case at the start and
after each dash, lower case elsewhere. -/
def canonicalLetters : Bool → List Char → List Char
  | _, [] => []
  | upper, c :: cs =>
    let c1 := if upper && c.isLower then c.toUpper
              else if !upper && c.isUpper then c.toLower
              else c
    c1 :: canonicalLetters (c1 == '-') cs

/-- The function `textproto.CanonicalMIMEHeaderKey`: a key holding a byte that is not valid in
a field name is returned unchanged, any other key is put in canonical letter case. -/
def CanonicalMIMEHeaderKey (s : String) : String :=
  if s.data.all validHeaderFieldByte then String.mk (canonicalLetters true s.data) else s

/-- A Go `http.Header`: a map from field name to values, as an association list whose keys
are pairwise distinct (see `Header.WF`). -/
abbrev Header := List (String × List String)

/-- Plain map assignment `h[key] = vals`. -/
def Header.assign (h : Header) (key : String) (vals : List String) : Header :=
  (key, vals) :: h.filter (fun e => e.1 != key)

/-- The method `http.Header.Set`: the value list of the canonical key becomes `[value]`. -/
def Header.Set (h : Header) (key value : String) : Header :=
  h.assign (CanonicalMIMEHeaderKey key) [value]

/-- The method `http.Header.Get`: first value stored under the canonical key, or `""`. -/
def Header.Get (h : Header) (key : String) : String :=
  match h.lookup (CanonicalMIMEHeaderKey key) with
  | some (v :: _) => v
  | _ => ""

/-- The invariant of a header map that is only written through `Set`: the keys are pairwise
distinct (it is a map) and each is in canonical form. -/
def Header.WF (h : Header) : Prop :=
  (h.map Prod.fst).Nodup ∧ ∀ e ∈ h, CanonicalMIMEHeaderKey e.1 = e.1

/-! ## Tokens, requests, responses -/

/-- Modelled from the spec: the `authorization` package (TokenType, Token, TokenGetter) is not
among the sources.  The spec gives a token the fields type, access value and region, with the
two supported types Bearer and Basic; `other` stands for any further value of the type and
carries the scheme text it renders to. -/
inductive TokenType where
  | BearerToken
  | BasicToken
  | other (scheme : String)
  deriving DecidableEq

/-- Modelled from the spec: the text a token type renders to under `%s`
("Authorization: <Bearer|Basic> <token>"). -/
def TokenType.scheme : TokenType → String
  | .BearerToken => "Bearer"
  | .BasicToken => "Basic"
  | .other s => s

/-- Modelled from the spec: the `authorization.Token` record; `Typ` is the Go field `Type`. -/
structure Token where
  AccessToken : String
  Region : String
  Typ : TokenType
  deriving DecidableEq

/-- Modelled from the spec: the `errors.ErrAPI` record is not among the sources.  The spec
gives the Structured API Error an error code and a message, read from a body of the shape
`"error": ("code", "message")`. -/
structure ErrAPI where
  code : String
  message : String
  deriving DecidableEq

/-- An `http.Request` as far as this file touches it.  `URL` is the text of the parsed URL
the request holds, that is of the value `url.Parse` returned; `Body` is `none` for a nil body.
The header map is never nil. -/
structure Request where
  Method : String
  URL : String
  Header : LcSdk.Header
  Body : Option Bytes
  deriving DecidableEq

/-- An `http.Response` as `send` sees it: the status code and the result of
`ioutil.ReadAll(resp.Body)`, that is the bytes read and the read error, if any. -/
structure Response where
  StatusCode : Int
  Body : Bytes
  ReadErr : Option ForeignErr
  deriving DecidableEq

/-- An `http.Client`: its timeout in seconds and what `Do` answers to a request. -/
structure Client where
  Timeout : Nat
  Do : Request → Except ForeignErr Response

/-- A Go `error` value returned by this file. -/
inductive Error where
  /-- an error built here with `fmt.Errorf` or `errors.New` -/
  | errorf (text : String)
  /-- an error received from a collaborator and returned unchanged -/
  | foreign (e : ForeignErr)
  /-- a `*ErrAPI` decoded from the response body -/
  | api (e : ErrAPI)
  deriving DecidableEq

/-- What `mime/multipart` does with a file name and a file: one of the three steps fails, or
the encoded body and the value of `FormDataContentType()` are produced. -/
inductive Multipart where
  | createFailed (err : ForeignErr)
  | writeFailed (err : ForeignErr)
  | closeFailed (err : ForeignErr)
  | done (body : Bytes) (contentType : String)
  deriving DecidableEq

/-- The behaviour of the libraries the file calls. -/
structure Env where
  /-- the call `json.Unmarshal(bodyBytes, apiErr)` on a fresh `ErrAPI` -/
  UnmarshalErrAPI : Bytes → Except ForeignErr ErrAPI
  /-- the method `(*ErrAPI).Error` -/
  ErrAPIError : ErrAPI → String
  /-- the multipart writer applied to a file name and a file -/
  formFile : String → Bytes → Multipart
  /-- the function `url.Parse`: its error, or the text of the URL it returns, which may
  differ from the input (the scheme is lower-cased, the path is escaped) -/
  urlParse : String → Except ForeignErr String
  /-- the order in which a `range` loop visits the entries of a map (unspecified in Go) -/
  range : Header → Header
  range_perm : ∀ h, (range h).Perm h

/-- Decoding of a success body into a response slot: `json.Unmarshal(bodyBytes, respPayload)`
gives the slot as the decoder leaves it and the error it returns. -/
abbrev Decoder (σ : Type) := Bytes → σ → σ × Option ForeignErr

/-- The type `HTTPRequestGenerator`, called with a non-nil token, the host and the action. -/
abbrev HTTPRequestGenerator := Token → String → String → Except ForeignErr Request

/-- The constant `apiVersion`. -/
def apiVersion : String := "3.3"

/-- The struct `api`. -/
structure api where
  httpClient : Client
  clientID : String
  tokenGetter : Unit → Option Token
  httpRequestGenerator : HTTPRequestGenerator
  host : String
  customHeaders : Header

/-- The result of running an operation: the returned error (`none` is nil), the returned value
or response slot, the arguments of each request-generator invocation and the requests handed to
the transport, in order. -/
structure Outcome (σ : Type) where
  err : Option Error
  out : σ
  generated : List (Token × String × String)
  sent : List Request

/-- The verb `%d` applied to an `int`. -/
def fmtD (n : Int) : String := toString n

/-! ## Operations -/

/-- The constructor `NewAPI`; `defaultDo` is what a default client (20 s timeout) answers. -/
def NewAPI (defaultDo : Request → Except ForeignErr Response)
    (t : Option (Unit → Option Token)) (client : Option Client) (clientID : String)
    (r : HTTPRequestGenerator) : Except Error api :=
  match t with
  | none => .error (.errorf "cannot initialize api without TokenGetter")
  | some t =>
    let client := match client with
      | none => { Timeout := 20, Do := defaultDo }
      | some c => c
    .ok { tokenGetter := t
          clientID := clientID
          httpClient := client
          host := "https://api.livechatinc.com"
          httpRequestGenerator := r
          customHeaders := [] }

/-- The method `send`. -/
def api.send {σ : Type} (a : api) (env : Env) (Unmarshal : Decoder σ)
    (req : Request) (respPayload : σ) : Outcome σ :=
  match a.httpClient.Do req with
  | .error err => ⟨some (.foreign err), respPayload, [], [req]⟩
  | .ok resp =>
    let bodyBytes := resp.Body
    let err := resp.ReadErr
    if resp.StatusCode ≠ 200 then
      match env.UnmarshalErrAPI bodyBytes with
      | .error err =>
        ⟨some (.errorf ("couldn't unmarshal error response: " ++ err ++ " (code: "
            ++ fmtD resp.StatusCode ++ ", raw body: " ++ bodyBytes ++ ")")),
          respPayload, [], [req]⟩
      | .ok apiErr =>
        if env.ErrAPIError apiErr = "" then
          ⟨some (.errorf ("couldn't unmarshal error response (code: "
              ++ fmtD resp.StatusCode ++ ", raw body: " ++ bodyBytes ++ ")")),
            respPayload, [], [req]⟩
        else ⟨some (.api apiErr), respPayload, [], [req]⟩
    else
      match err with
      | some err => ⟨some (.foreign err), respPayload, [], [req]⟩
      | none =>
        let r := Unmarshal bodyBytes respPayload
        ⟨r.2.map Error.foreign, r.1, [], [req]⟩

/-- One turn of the loop over the custom headers in `Call`. -/
def applyCustomHeader (req : Request) (e : String × List String) : Request :=
  match e.2 with
  | [] => req
  | v :: _ => { req with Header := req.Header.Set e.1 v }

/-- The method `Call`. -/
def api.Call {P σ : Type} (a : api) (env : Env) (Marshal : P → Except ForeignErr Bytes)
    (Unmarshal : Decoder σ) (action : String) (reqPayload : P) (respPayload : σ) : Outcome σ :=
  match Marshal reqPayload with
  | .error err => ⟨some (.foreign err), respPayload, [], []⟩
  | .ok rawBody =>
    match a.tokenGetter () with
    | none => ⟨some (.errorf "couldn't get token"), respPayload, [], []⟩
    | some token =>
      if token.Typ ≠ .BearerToken ∧ token.Typ ≠ .BasicToken then
        ⟨some (.errorf "unsupported token type"), respPayload, [], []⟩
      else
        match a.httpRequestGenerator token a.host action with
        | .error err =>
          ⟨some (.errorf ("couldn't create new http request: " ++ err)), respPayload,
            [(token, a.host, action)], []⟩
        | .ok req =>
          let req := { req with Body := some rawBody }
          let req := { req with Header := req.Header.Set "Content-Type" "application/json" }
          let req := { req with Header :=
                        req.Header.Set "Authorization" (token.Typ.scheme ++ " " ++ token.AccessToken) }
          let req := { req with Header :=
                        req.Header.Set "User-agent" ("GO SDK Application " ++ a.clientID) }
          let req := { req with Header := req.Header.Set "X-Region" token.Region }
          let req := (env.range a.customHeaders).foldl applyCustomHeader req
          { a.send env Unmarshal req respPayload with generated := [(token, a.host, action)] }

/-- The method `SetCustomHeader`. -/
def api.SetCustomHeader (a : api) (key val : String) : api :=
  { a with customHeaders := a.customHeaders.Set key val }

/-- The method `SetCustomHost`. -/
def api.SetCustomHost (a : api) (host : String) : api :=
  { a with host := host }

/-- The struct `fileUploadAPI`, which embeds `*api`. -/
structure fileUploadAPI extends api

/-- The constructor `NewAPIWithFileUpload`. -/
def NewAPIWithFileUpload (defaultDo : Request → Except ForeignErr Response)
    (t : Option (Unit → Option Token)) (client : Option Client) (clientID : String)
    (r : HTTPRequestGenerator) : Except Error fileUploadAPI :=
  match NewAPI defaultDo t client clientID r with
  | .error err => .error err
  | .ok api => .ok ⟨api⟩

/-- The anonymous response struct of `UploadFile`, with its field `url`. -/
structure UploadResp where
  URL : String
  deriving DecidableEq

/-- The method `UploadFile`; `out` is the returned string. -/
def fileUploadAPI.UploadFile (a : fileUploadAPI) (env : Env) (Unmarshal : Decoder UploadResp)
    (filename : String) (file : Bytes) : Outcome String :=
  match env.formFile filename file with
  | .createFailed err => ⟨some (.errorf ("couldn't create form file: " ++ err)), "", [], []⟩
  | .writeFailed err =>
    ⟨some (.errorf ("couldn't write file to multipart writer: " ++ err)), "", [], []⟩
  | .closeFailed err =>
    ⟨some (.errorf ("couldn't close multipart writer: " ++ err)), "", [], []⟩
  | .done body contentType =>
    match a.tokenGetter () with
    | none => ⟨some (.errorf "couldn't get token"), "", [], []⟩
    | some token =>
      match a.httpRequestGenerator token a.host "upload_file" with
      | .error err =>
        ⟨some (.errorf ("couldn't create new http request: " ++ err)), "",
          [(token, a.host, "upload_file")], []⟩
      | .ok req =>
        let req := { req with Method := "POST" }
        let req := { req with Body := some body }
        let req := { req with Header := req.Header.Set "Content-Type" contentType }
        let req := { req with Header :=
                      req.Header.Set "Authorization" ("Bearer " ++ token.AccessToken) }
        let req := { req with Header :=
                      req.Header.Set "User-agent" ("GO SDK Application " ++ a.clientID) }
        let req := { req with Header := req.Header.Set "X-Region" token.Region }
        let resp : UploadResp := ⟨""⟩
        let r := a.send env Unmarshal req resp
        ⟨r.err, r.out.URL, [(token, a.host, "upload_file")], r.sent⟩

/-- The call `http.NewRequest(method, url, nil)` for a valid method: it fails when the URL does
not parse and otherwise gives a request that holds the parsed URL, an empty header map and no
body. -/
def NewRequest (env : Env) (method url : String) : Except ForeignErr Request :=
  match env.urlParse url with
  | .error err => .error err
  | .ok u => .ok { Method := method, URL := u, Header := [], Body := none }

/-- The function `DefaultHTTPRequestGenerator`. -/
def DefaultHTTPRequestGenerator (env : Env) (name : String) : HTTPRequestGenerator :=
  fun _token host action =>
    let url := host ++ "/v" ++ apiVersion ++ "/" ++ name ++ "/action/" ++ action
    NewRequest env "POST" url

/-- A call of one of the two setters. -/
inductive Setter where
  | header (key val : String)
  | host (host : String)
  deriving DecidableEq

/-- The client after a setter call. -/
def api.apply (a : api) : Setter → api
  | .header key val => a.SetCustomHeader key val
  | .host host => a.SetCustomHost host

/-- The client after a sequence of setter calls, first to last. -/
def api.applyAll (a : api) (ops : List Setter) : api :=
  ops.foldl api.apply a

/-- The canonical header key a setter call writes, if it writes one. -/
def Setter.writes : Setter → Option String
  | .header key _ => some (CanonicalMIMEHeaderKey key)
  | .host _ => none

/-- The request `Call` hands to `send`: the generator's request `req` with the marshalled body,
the four generated headers and then the custom headers. -/
def callRequest (a : api) (env : Env) (rawBody : Bytes) (token : Token) (req : Request) :
    Request :=
  (env.range a.customHeaders).foldl applyCustomHeader
    { req with
      Body := some rawBody
      Header := (((req.Header.Set "Content-Type" "application/json").Set "Authorization"
        (token.Typ.scheme ++ " " ++ token.AccessToken)).Set "User-agent"
        ("GO SDK Application " ++ a.clientID)).Set "X-Region" token.Region }

/-- The request `UploadFile` hands to `send`: the generator's request `req` with method POST,
the multipart body and the four generated headers. -/
def uploadRequest (a : api) (body : Bytes) (contentType : String) (token : Token)
    (req : Request) : Request :=
  { req with
    Method := "POST"
    Body := some body
    Header := (((req.Header.Set "Content-Type" contentType).Set "Authorization"
      ("Bearer " ++ token.AccessToken)).Set "User-agent"
      ("GO SDK Application " ++ a.clientID)).Set "X-Region" token.Region }

/-! ## A worked client

Concrete collaborators on which the operations are evaluated. -/

/-- The error body of the specification's example. -/
def sampleErrBody : Bytes :=
  "\x7b\"error\":\x7b\"code\":\"invalid_request\",\"message\":\"bad payload\"\x7d\x7d"

/-- A success body of the upload endpoint. -/
def sampleURLBody : Bytes := "\x7b\"url\":\"https://cdn.example/x\"\x7d"

/-- A body whose first `url` member is a string and whose second is a number. -/
def sampleDuplicateURLBody : Bytes := "\x7b\"url\":\"a\",\"url\":5\x7d"

/-- A URL parser for the sample inputs: like `url.Parse` it lower-cases the scheme `HTTPS` and
leaves a lower-case, unescaped URL as it is. -/
def sampleParse (u : String) : Except ForeignErr String :=
  match u.data with
  | 'H' :: 'T' :: 'T' :: 'P' :: 'S' :: ':' :: rest =>
    .ok (String.mk ('h' :: 't' :: 't' :: 'p' :: 's' :: ':' :: rest))
  | _ => .ok u

/-- Library behaviour on the sample inputs: the error decoder knows the example body and the
empty object and rejects everything else, as `encoding/json` rejects an empty input; a `range`
loop visits the entries last to first. -/
def sampleEnv : Env where
  UnmarshalErrAPI := fun b =>
    if b = sampleErrBody then .ok ⟨"invalid_request", "bad payload"⟩
    else if b = "\x7b\x7d" then .ok ⟨"", ""⟩
    else .error "unexpected end of JSON input"
  ErrAPIError := fun e =>
    if e.code = "" ∧ e.message = "" then "" else "API error: " ++ e.code ++ " - " ++ e.message
  formFile := fun filename file =>
    .done ("--b\r\nContent-Disposition: form-data; name=\"file\"; filename=\"" ++ filename
      ++ "\"\r\n\r\n" ++ file ++ "\r\n--b--\r\n") "multipart/form-data; boundary=b"
  urlParse := sampleParse
  range := List.reverse
  range_perm := List.reverse_perm

/-- A decoder for the upload response on the sample bodies.  On the body with two `url`
members it does what `encoding/json` documents for a value of the wrong type: the string is
stored, the number is skipped, and the type error is returned at the end. -/
def sampleUnmarshalURL : Decoder UploadResp := fun b slot =>
  if b = sampleURLBody then (⟨"https://cdn.example/x"⟩, none)
  else if b = sampleDuplicateURLBody then
    (⟨"a"⟩, some "json: cannot unmarshal number into Go struct field .url of type string")
  else (slot, some "unexpected end of JSON input")

/-- A decoder for a response slot that holds the raw body. -/
def sampleUnmarshalRaw : Decoder String := fun b _ => (b, none)

/-- An encoder for string payloads. -/
def sampleMarshal : String → Except ForeignErr Bytes := fun p => .ok ("\"" ++ p ++ "\"")

/-- A transport that answers every request with the same response. -/
def fixedClient (resp : Response) : Client := ⟨20, fun _ => .ok resp⟩

/-- A client for service `agent` with the default generator, a fixed token and a fixed
transport answer, as `NewAPI` builds it. -/
def sampleAPI (token : Token) (resp : Response) : api where
  httpClient := fixedClient resp
  clientID := "demo"
  tokenGetter := fun _ => some token
  httpRequestGenerator := DefaultHTTPRequestGenerator sampleEnv "agent"
  host := "https://api.livechatinc.com"
  customHeaders := []

/-- A Bearer token. -/
def bearerToken : Token := ⟨"secret", "fra", .BearerToken⟩

/-- A token of a type that is neither Bearer nor Basic. -/
def macToken : Token := ⟨"secret", "fra", .other "MAC"⟩

/-- The sample client after `SetCustomHeader("X-Debug-Id", "42")`. -/
def sampleDebugAPI : api :=
  (sampleAPI bearerToken ⟨200, sampleURLBody, none⟩).SetCustomHeader "X-Debug-Id" "42"

/-- A request as the default generator makes it for action `list_chats`. -/
def sampleRequest : Request :=
  ⟨"POST", "https://api.livechatinc.com/v3.3/agent/action/list_chats", [], none⟩

/-! ## Header maps: canonical keys, `Set` and `Get` -/

theorem lower_case_128 : ∀ n : Fin 128,
    (Char.ofNat n.val).isLower = true → (Char.ofNat n.val).toUpper.isLower = false := by
  decide

theorem upper_case_128 : ∀ n : Fin 128,
    (Char.ofNat n.val).isUpper = true → (Char.ofNat n.val).toLower.isUpper = false := by
  decide

theorem isLower_toNat_lt (c : Char) (h : c.isLower = true) : c.toNat < 128 := by
  simp only [Char.isLower, Bool.and_eq_true, decide_eq_true_eq] at h
  have h2 : c.val.toNat ≤ 122 := UInt32.toNat_le_of_le (by decide) h.2
  show c.val.toNat < 128
  omega

theorem isUpper_toNat_lt (c : Char) (h : c.isUpper = true) : c.toNat < 128 := by
  simp only [Char.isUpper, Bool.and_eq_true, decide_eq_true_eq] at h
  have h2 : c.val.toNat ≤ 90 := UInt32.toNat_le_of_le (by decide) h.2
  show c.val.toNat < 128
  omega

theorem toUpper_not_isLower (c : Char) (h : c.isLower = true) : c.toUpper.isLower = false := by
  have key := lower_case_128 ⟨c.toNat, isLower_toNat_lt c h⟩
  simp only [Char.ofNat_toNat] at key
  exact key h

theorem toLower_not_isUpper (c : Char) (h : c.isUpper = true) : c.toLower.isUpper = false := by
  have key := upper_case_128 ⟨c.toNat, isUpper_toNat_lt c h⟩
  simp only [Char.ofNat_toNat] at key
  exact key h

/-- A second pass of the letter loop changes nothing. -/
theorem canonicalLetters_idem (l : List Char) :
    ∀ upper, canonicalLetters upper (canonicalLetters upper l) = canonicalLetters upper l := by
  induction l with
  | nil => intro upper; rfl
  | cons c cs ih =>
    intro upper
    simp only [canonicalLetters]
    cases upper with
    | true =>
      by_cases hl : c.isLower = true
      · simp [hl, toUpper_not_isLower c hl, ih]
      · simp [hl, ih]
    | false =>
      by_cases hu : c.isUpper = true
      · simp [hu, toLower_not_isUpper c hu, ih]
      · simp [hu, ih]

/-- Canonicalising a header key twice is the same as canonicalising it once. -/
theorem CanonicalMIMEHeaderKey_idem (s : String) :
    CanonicalMIMEHeaderKey (CanonicalMIMEHeaderKey s) = CanonicalMIMEHeaderKey s := by
  unfold CanonicalMIMEHeaderKey
  by_cases hv : s.data.all validHeaderFieldByte = true
  · rw [if_pos hv]
    by_cases hv2 : (canonicalLetters true s.data).all validHeaderFieldByte = true
    · rw [if_pos hv2, canonicalLetters_idem]
    · rw [if_neg hv2]
  · rw [if_neg hv, if_neg hv]

theorem Header.lookup_filter_ne (h : Header) (key k : String) (hne : k ≠ key) :
    (h.filter (fun e => e.1 != key)).lookup k = h.lookup k := by
  induction h with
  | nil => rfl
  | cons e es ih =>
    obtain ⟨ek, ev⟩ := e
    by_cases hek : ek = key
    · subst hek
      have hk : (k == ek) = false := by simpa using hne
      simp [List.filter, List.lookup, hk, ih]
    · have hf : (ek != key) = true := by simpa using hek
      simp only [List.filter, hf, List.lookup]
      rw [ih]

theorem Header.lookup_assign_self (h : Header) (key : String) (vals : List String) :
    (h.assign key vals).lookup key = some vals := by
  simp [Header.assign, List.lookup]

theorem Header.lookup_assign_ne (h : Header) (key k : String) (vals : List String)
    (hne : k ≠ key) : (h.assign key vals).lookup k = h.lookup k := by
  have hk : (k == key) = false := by simpa using hne
  simp only [Header.assign, List.lookup, hk]
  exact Header.lookup_filter_ne h key k hne

/-- Reading a key right after setting a key with the same canonical form gives the value. -/
theorem Header.Get_Set_same (h : Header) (key k value : String)
    (hk : CanonicalMIMEHeaderKey k = CanonicalMIMEHeaderKey key) :
    (h.Set key value).Get k = value := by
  simp [Header.Get, Header.Set, hk, Header.lookup_assign_self]

/-- Setting a key leaves the keys with another canonical form as they were. -/
theorem Header.Get_Set_ne (h : Header) (key k value : String)
    (hk : CanonicalMIMEHeaderKey k ≠ CanonicalMIMEHeaderKey key) :
    (h.Set key value).Get k = h.Get k := by
  simp [Header.Get, Header.Set, Header.lookup_assign_ne h _ _ [value] hk]

theorem Header.WF_nil : Header.WF [] := by
  simp [Header.WF]

/-- The invariant is kept by `Set`. -/
theorem Header.WF_Set (h : Header) (key value : String) (hw : h.WF) : (h.Set key value).WF := by
  obtain ⟨hnd, hcanon⟩ := hw
  refine ⟨?_, ?_⟩
  · simp only [Header.Set, Header.assign, List.map_cons, List.nodup_cons]
    refine ⟨?_, (hnd.sublist (List.Sublist.map _ (List.filter_sublist h)))⟩
    intro hmem
    obtain ⟨e, he, hek⟩ := List.mem_map.1 hmem
    have hne := (List.mem_filter.1 he).2
    simp at hne
    exact hne hek
  · intro e he
    simp only [Header.Set, Header.assign, List.mem_cons] at he
    rcases he with rfl | he
    · exact CanonicalMIMEHeaderKey_idem key
    · exact hcanon e (List.mem_filter.1 he).1

theorem Header.mem_Set_self (h : Header) (key value : String) :
    (CanonicalMIMEHeaderKey key, [value]) ∈ h.Set key value := by
  simp [Header.Set, Header.assign]

theorem Header.mem_Set_of_ne (h : Header) (key value : String) (e : String × List String)
    (he : e ∈ h) (hne : e.1 ≠ CanonicalMIMEHeaderKey key) : e ∈ h.Set key value := by
  simp only [Header.Set, Header.assign, List.mem_cons]
  right
  exact List.mem_filter.2 ⟨he, by simpa using hne⟩

/-! ## The custom-header loop of `Call` -/

/-- The loop leaves a header alone when no visited entry has its canonical key. -/
theorem foldl_applyCustomHeader_Get_ne (l : Header) (k : String)
    (hk : ∀ e ∈ l, CanonicalMIMEHeaderKey k ≠ CanonicalMIMEHeaderKey e.1) :
    ∀ req : Request, (l.foldl applyCustomHeader req).Header.Get k = req.Header.Get k := by
  induction l with
  | nil => intro req; rfl
  | cons e es ih =>
    intro req
    simp only [List.foldl_cons]
    rw [ih (fun e' he' => hk e' (List.mem_cons_of_mem _ he'))]
    unfold applyCustomHeader
    cases hv : e.2 with
    | nil => rfl
    | cons v vs => exact Header.Get_Set_ne _ _ _ _ (hk e (List.mem_cons_self _ _))

/-- After the loop over a well-formed map, in any order, every entry with a value is on the
request under its key. -/
theorem foldl_applyCustomHeader_Get_mem (l : Header) (hw : Header.WF l) (key v : String)
    (vs : List String) (hmem : (key, v :: vs) ∈ l) :
    ∀ req : Request, (l.foldl applyCustomHeader req).Header.Get key = v := by
  induction l with
  | nil => simp at hmem
  | cons e es ih =>
    intro req
    obtain ⟨hnd, hcanon⟩ := hw
    have hwes : Header.WF es :=
      ⟨(List.nodup_cons.1 hnd).2, fun e' he' => hcanon e' (List.mem_cons_of_mem _ he')⟩
    simp only [List.foldl_cons]
    rcases List.mem_cons.1 hmem with heq | hin
    · subst heq
      have hnot : (key, v :: vs).1 ∉ es.map Prod.fst := (List.nodup_cons.1 hnd).1
      rw [foldl_applyCustomHeader_Get_ne es key]
      · exact Header.Get_Set_same _ _ _ _ rfl
      · intro e' he' heq
        have h1 := hcanon e' (List.mem_cons_of_mem _ he')
        have h2 := hcanon (key, v :: vs) (List.mem_cons_self _ _)
        simp only at h2
        rw [h1, h2] at heq
        exact hnot (List.mem_map.2 ⟨e', he', heq.symm⟩)
    · exact ih hwes hin _

theorem Header.WF_of_perm (l h : Header) (hp : l.Perm h) (hw : h.WF) : l.WF :=
  ⟨(hp.map Prod.fst).nodup_iff.2 hw.1, fun e he => hw.2 e (hp.mem_iff.1 he)⟩

/-! ## Setter sequences -/

/-- The custom headers stay well formed under the setters. -/
theorem api.applyAll_WF (ops : List Setter) :
    ∀ a : api, a.customHeaders.WF → (a.applyAll ops).customHeaders.WF := by
  induction ops with
  | nil => intro a hw; simpa [api.applyAll] using hw
  | cons op ops ih =>
    intro a hw
    simp only [api.applyAll, List.foldl_cons]
    apply ih
    cases op with
    | header key val => exact Header.WF_Set _ _ _ hw
    | host host => exact hw

/-- A custom header stays in the map as long as no later setter writes its key. -/
theorem api.applyAll_mem (ops : List Setter) (key : String) (vals : List String) :
    ∀ a : api, (key, vals) ∈ a.customHeaders → (∀ op ∈ ops, op.writes ≠ some key) →
      (key, vals) ∈ (a.applyAll ops).customHeaders := by
  induction ops with
  | nil => intro a hmem _; simpa [api.applyAll] using hmem
  | cons op ops ih =>
    intro a hmem hops
    simp only [api.applyAll, List.foldl_cons]
    apply ih
    · cases op with
      | header k v =>
        have hne := hops (.header k v) (List.mem_cons_self _ _)
        simp only [Setter.writes, ne_eq, Option.some.injEq] at hne
        exact Header.mem_Set_of_ne _ _ _ _ hmem (fun h => hne h.symm)
      | host host => exact hmem
    · intro op' hop'
      exact hops op' (List.mem_cons_of_mem _ hop')

theorem api.send_sent {σ : Type} (a : api) (env : Env) (U : Decoder σ) (req : Request)
    (slot : σ) : (a.send env U req slot).sent = [req] ∧ (a.send env U req slot).generated = [] := by
  unfold api.send
  split
  · exact ⟨rfl, rfl⟩
  · dsimp only
    split
    · split
      · exact ⟨rfl, rfl⟩
      · split <;> exact ⟨rfl, rfl⟩
    · split <;> exact ⟨rfl, rfl⟩

/-- A run of `Call` that gets past the token check and the generator is a run of `send` on
the decorated request. -/
theorem api.Call_ok {P σ : Type} (a : api) (env : Env) (M : P → Except ForeignErr Bytes)
    (U : Decoder σ) (action : String) (p : P) (slot : σ) (raw : Bytes) (token : Token)
    (r : Request) (hM : M p = .ok raw) (htok : a.tokenGetter () = some token)
    (hty : token.Typ = .BearerToken ∨ token.Typ = .BasicToken)
    (hgen : a.httpRequestGenerator token a.host action = .ok r) :
    a.Call env M U action p slot
      = { a.send env U (callRequest a env raw token r) slot with
          generated := [(token, a.host, action)] } := by
  have hty2 : ¬(token.Typ ≠ .BearerToken ∧ token.Typ ≠ .BasicToken) := by
    rcases hty with h | h <;> simp [h]
  unfold api.Call
  simp only [hM, htok, hgen, if_neg hty2]
  rfl

/-- Every run of `Call` either stops before the transport or is a run of `send`. -/
theorem api.Call_cases {P σ : Type} (a : api) (env : Env) (M : P → Except ForeignErr Bytes)
    (U : Decoder σ) (action : String) (p : P) (slot : σ) :
    ((a.Call env M U action p slot).sent = [] ∧ (a.Call env M U action p slot).err ≠ none
        ∧ (a.Call env M U action p slot).out = slot
        ∧ ∀ g ∈ (a.Call env M U action p slot).generated, g.2 = (a.host, action))
      ∨ ∃ raw token r, M p = .ok raw ∧ a.tokenGetter () = some token
          ∧ (token.Typ = .BearerToken ∨ token.Typ = .BasicToken)
          ∧ a.httpRequestGenerator token a.host action = .ok r
          ∧ a.Call env M U action p slot
              = { a.send env U (callRequest a env raw token r) slot with
                  generated := [(token, a.host, action)] } := by
  cases hM : M p with
  | error e => left; simp [api.Call, hM]
  | ok raw =>
    cases htok : a.tokenGetter () with
    | none => left; simp [api.Call, hM, htok]
    | some token =>
      by_cases hty : token.Typ ≠ .BearerToken ∧ token.Typ ≠ .BasicToken
      · left; simp [api.Call, hM, htok, hty]
      · cases hgen : a.httpRequestGenerator token a.host action with
        | error e => left; simp [api.Call, hM, htok, hty, hgen]
        | ok r =>
          right
          have hty2 : token.Typ = .BearerToken ∨ token.Typ = .BasicToken := by
            by_contra hc
            exact hty ⟨fun h => hc (Or.inl h), fun h => hc (Or.inr h)⟩
          exact ⟨raw, token, r, rfl, rfl, hty2, hgen,
            api.Call_ok a env M U action p slot raw token r hM htok hty2 hgen⟩

/-- The four outcomes of `send` after the transport has answered. -/
theorem api.send_of_response {σ : Type} (a : api) (env : Env) (U : Decoder σ) (req : Request)
    (slot : σ) (resp : Response) (hdo : a.httpClient.Do req = .ok resp) :
    (resp.StatusCode ≠ 200 →
        (a.send env U req slot).err ≠ none ∧ (a.send env U req slot).out = slot
          ∧ ∀ e, (a.send env U req slot).err ≠ some (.foreign e))
      ∧ (resp.StatusCode = 200 → ∀ e, resp.ReadErr = some e →
          (a.send env U req slot).err = some (.foreign e) ∧ (a.send env U req slot).out = slot)
      ∧ (resp.StatusCode = 200 → resp.ReadErr = none →
          (a.send env U req slot).err = (U resp.Body slot).2.map Error.foreign
            ∧ (a.send env U req slot).out = (U resp.Body slot).1) := by
  refine ⟨?_, ?_, ?_⟩
  · intro hs
    cases hd : env.UnmarshalErrAPI resp.Body with
    | error d => simp [api.send, hdo, hs, hd]
    | ok e =>
      by_cases he : env.ErrAPIError e = ""
      · simp [api.send, hdo, hs, hd, he]
      · simp [api.send, hdo, hs, hd, he]
  · intro hs e he
    simp [api.send, hdo, hs, he]
  · intro hs he
    simp [api.send, hdo, hs, he]

theorem api.send_of_transport_error {σ : Type} (a : api) (env : Env) (U : Decoder σ)
    (req : Request) (slot : σ) (e : ForeignErr) (hdo : a.httpClient.Do req = .error e) :
    (a.send env U req slot).err = some (.foreign e) ∧ (a.send env U req slot).out = slot := by
  simp [api.send, hdo]

/-- Every run of `UploadFile` either stops before the transport, with an error and the empty
string, or is a run of `send` on the decorated request with an empty response struct. -/
theorem fileUploadAPI.UploadFile_cases (a : fileUploadAPI) (env : Env) (U : Decoder UploadResp)
    (filename : String) (file : Bytes) :
    ((a.UploadFile env U filename file).sent = [] ∧ (a.UploadFile env U filename file).err ≠ none
        ∧ (a.UploadFile env U filename file).out = "")
      ∨ ∃ body contentType token r, env.formFile filename file = .done body contentType
          ∧ a.tokenGetter () = some token
          ∧ a.httpRequestGenerator token a.host "upload_file" = .ok r
          ∧ (a.UploadFile env U filename file).sent
              = [uploadRequest a.toapi body contentType token r]
          ∧ (a.UploadFile env U filename file).generated = [(token, a.host, "upload_file")]
          ∧ (a.UploadFile env U filename file).err
              = (a.send env U (uploadRequest a.toapi body contentType token r) ⟨""⟩).err
          ∧ (a.UploadFile env U filename file).out
              = (a.send env U (uploadRequest a.toapi body contentType token r) ⟨""⟩).out.URL := by
  cases hf : env.formFile filename file with
  | createFailed e => left; simp [fileUploadAPI.UploadFile, hf]
  | writeFailed e => left; simp [fileUploadAPI.UploadFile, hf]
  | closeFailed e => left; simp [fileUploadAPI.UploadFile, hf]
  | done body contentType =>
    cases htok : a.tokenGetter () with
    | none => left; simp [fileUploadAPI.UploadFile, hf, htok]
    | some token =>
      cases hgen : a.httpRequestGenerator token a.host "upload_file" with
      | error e => left; simp [fileUploadAPI.UploadFile, hf, htok, hgen]
      | ok r =>
        right
        refine ⟨body, contentType, token, r, rfl, rfl, hgen, ?_, ?_, ?_, ?_⟩
        · simp only [fileUploadAPI.UploadFile, hf, htok, hgen]
          exact (api.send_sent _ _ _ _ _).1
        · simp only [fileUploadAPI.UploadFile, hf, htok, hgen]
        · simp only [fileUploadAPI.UploadFile, hf, htok, hgen]
          rfl
        · simp only [fileUploadAPI.UploadFile, hf, htok, hgen]
          rfl

theorem Header.Get_canonical (h : Header) (k : String) :
    h.Get (CanonicalMIMEHeaderKey k) = h.Get k := by
  simp [Header.Get, CanonicalMIMEHeaderKey_idem]

/-- A custom header with a value is on the request that `Call` builds, under its key. -/
theorem callRequest_Get_custom (a : api) (env : Env) (raw : Bytes) (token : Token)
    (r : Request) (k v : String) (vs : List String) (hw : a.customHeaders.WF)
    (hmem : (CanonicalMIMEHeaderKey k, v :: vs) ∈ a.customHeaders) :
    (callRequest a env raw token r).Header.Get k = v := by
  have hp := env.range_perm a.customHeaders
  rw [← Header.Get_canonical]
  exact foldl_applyCustomHeader_Get_mem _ (Header.WF_of_perm _ _ hp hw) _ v vs
    (hp.mem_iff.2 hmem) _

theorem NewAPI_fields (defaultDo : Request → Except ForeignErr Response)
    (t : Option (Unit → Option Token)) (client : Option Client) (clientID : String)
    (r : HTTPRequestGenerator) (a0 : api) (hnew : NewAPI defaultDo t client clientID r = .ok a0) :
    a0.host = "https://api.livechatinc.com" ∧ a0.customHeaders = []
      ∧ a0.httpRequestGenerator = r ∧ a0.clientID = clientID := by
  cases t with
  | none => simp [NewAPI] at hnew
  | some t =>
    simp only [NewAPI, Except.ok.injEq] at hnew
    subst hnew
    exact ⟨rfl, rfl, rfl, rfl⟩

/-! ## Claims about `Call` and `send` -/

/-- C1: for every action, every request payload and every token whose type is neither Bearer
nor Basic, `Call` returns a non-nil error, leaves the response slot alone and invokes neither
the request generator nor the transport; when the payload serialises the error is the
unsupported-type error. -/
theorem C1_call_rejects_unsupported_token {P σ : Type} (a : api) (env : Env)
    (M : P → Except ForeignErr Bytes) (U : Decoder σ) (action : String) (p : P) (slot : σ)
    (token : Token) (htok : a.tokenGetter () = some token)
    (hbearer : token.Typ ≠ .BearerToken) (hbasic : token.Typ ≠ .BasicToken) :
    (a.Call env M U action p slot).err ≠ none
      ∧ (a.Call env M U action p slot).generated = []
      ∧ (a.Call env M U action p slot).sent = []
      ∧ (a.Call env M U action p slot).out = slot
      ∧ (∀ raw, M p = .ok raw →
          (a.Call env M U action p slot).err = some (.errorf "unsupported token type")) := by
  cases hM : M p with
  | error e => simp [api.Call, hM]
  | ok raw => simp [api.Call, hM, htok, hbearer, hbasic]

/-- C1 at a token of type MAC: no generator call, no request, the unsupported-type error. -/
theorem C1_call_rejects_unsupported_token_witness :
    (sampleAPI macToken ⟨200, sampleURLBody, none⟩).tokenGetter () = some macToken
      ∧ macToken.Typ ≠ .BearerToken ∧ macToken.Typ ≠ .BasicToken
      ∧ ((sampleAPI macToken ⟨200, sampleURLBody, none⟩).Call sampleEnv sampleMarshal
          sampleUnmarshalRaw "list_chats" "x" "").generated = []
      ∧ ((sampleAPI macToken ⟨200, sampleURLBody, none⟩).Call sampleEnv sampleMarshal
          sampleUnmarshalRaw "list_chats" "x" "").sent = []
      ∧ ((sampleAPI macToken ⟨200, sampleURLBody, none⟩).Call sampleEnv sampleMarshal
          sampleUnmarshalRaw "list_chats" "x" "").err
          = some (.errorf "unsupported token type") := by
  have h := C1_call_rejects_unsupported_token (sampleAPI macToken ⟨200, sampleURLBody, none⟩)
    sampleEnv sampleMarshal sampleUnmarshalRaw "list_chats" "x" "" macToken rfl
    (by decide) (by decide)
  exact ⟨rfl, by decide, by decide, h.2.1, h.2.2.1, h.2.2.2.2 _ rfl⟩

/-- C2: when the transport answers a request with a non-200 response whose body unmarshals
into the Structured API Error shape with a non-empty error text, `send` returns that very
error value, code and message as decoded, and leaves the response slot alone; so does every
run of `Call` that hands that request to the transport. -/
theorem C2_structured_error_returned (a : api) (env : Env) (req : Request) (resp : Response)
    (e : ErrAPI) (hdo : a.httpClient.Do req = .ok resp) (hstatus : resp.StatusCode ≠ 200)
    (hdec : env.UnmarshalErrAPI resp.Body = .ok e) (htext : env.ErrAPIError e ≠ "") :
    (∀ (σ : Type) (U : Decoder σ) (slot : σ),
        (a.send env U req slot).err = some (.api e) ∧ (a.send env U req slot).out = slot)
      ∧ (∀ (P σ : Type) (M : P → Except ForeignErr Bytes) (U : Decoder σ) (action : String)
          (p : P) (slot : σ), (a.Call env M U action p slot).sent = [req] →
            (a.Call env M U action p slot).err = some (.api e)
              ∧ (a.Call env M U action p slot).out = slot) := by
  have hsend : ∀ (σ : Type) (U : Decoder σ) (slot : σ),
      (a.send env U req slot).err = some (.api e) ∧ (a.send env U req slot).out = slot := by
    intro σ U slot
    simp [api.send, hdo, hstatus, hdec, htext]
  refine ⟨hsend, ?_⟩
  intro P σ M U action p slot hsent
  rcases api.Call_cases a env M U action p slot with h | ⟨raw, token, r, _, _, _, _, hcall⟩
  · rw [h.1] at hsent
    cases hsent
  · rw [hcall] at hsent ⊢
    have hreq : callRequest a env raw token r = req := by
      have h1 := (api.send_sent a env U (callRequest a env raw token r) slot).1
      simp only at hsent
      rw [h1] at hsent
      exact List.head_eq_of_cons_eq hsent
    rw [hreq]
    exact hsend σ U slot

/-- C2 on the specification's example: status 400 with the `invalid_request` body. -/
theorem C2_structured_error_returned_witness :
    ((sampleAPI bearerToken ⟨400, sampleErrBody, none⟩).send sampleEnv sampleUnmarshalRaw
        ⟨"POST", "https://api.livechatinc.com/v3.3/agent/action/list_chats", [], none⟩ "").err
        = some (.api ⟨"invalid_request", "bad payload"⟩)
      ∧ ((sampleAPI bearerToken ⟨400, sampleErrBody, none⟩).Call sampleEnv sampleMarshal
          sampleUnmarshalRaw "list_chats" "x" "").err
          = some (.api ⟨"invalid_request", "bad payload"⟩) := by
  refine ⟨((C2_structured_error_returned (sampleAPI bearerToken ⟨400, sampleErrBody, none⟩)
      sampleEnv ⟨"POST", "https://api.livechatinc.com/v3.3/agent/action/list_chats", [], none⟩
      ⟨400, sampleErrBody, none⟩ ⟨"invalid_request", "bad payload"⟩ rfl (by decide)
      rfl (by decide)).1 String sampleUnmarshalRaw "").1, ?_⟩
  exact ((C2_structured_error_returned (sampleAPI bearerToken ⟨400, sampleErrBody, none⟩)
      sampleEnv _ ⟨400, sampleErrBody, none⟩ ⟨"invalid_request", "bad payload"⟩ rfl
      (by decide) rfl (by decide)).2 String String sampleMarshal sampleUnmarshalRaw
      "list_chats" "x" "" rfl).1

/-- C3: when the transport answers with a non-200 status and the body does not unmarshal
into the Structured API Error shape, or unmarshals to an error with an empty text, `send`
returns a non-nil error built here whose text holds the decimal status code followed by the
raw body, and the response slot is left alone. -/
theorem C3_synthesized_error (a : api) (env : Env) {σ : Type} (U : Decoder σ) (req : Request)
    (slot : σ) (resp : Response) (hdo : a.httpClient.Do req = .ok resp)
    (hstatus : resp.StatusCode ≠ 200)
    (hdec : (∃ d, env.UnmarshalErrAPI resp.Body = .error d)
      ∨ (∃ e, env.UnmarshalErrAPI resp.Body = .ok e ∧ env.ErrAPIError e = "")) :
    (∃ before after : String, (a.send env U req slot).err
        = some (.errorf (before ++ fmtD resp.StatusCode ++ ", raw body: " ++ resp.Body
            ++ after)))
      ∧ (a.send env U req slot).err ≠ none ∧ (a.send env U req slot).out = slot := by
  rcases hdec with ⟨d, hd⟩ | ⟨e, he, hempty⟩
  · refine ⟨⟨"couldn't unmarshal error response: " ++ d ++ " (code: ", ")", ?_⟩, ?_, ?_⟩
    · simp [api.send, hdo, hstatus, hd, String.append_assoc]
    · simp [api.send, hdo, hstatus, hd]
    · simp [api.send, hdo, hstatus, hd]
  · refine ⟨⟨"couldn't unmarshal error response (code: ", ")", ?_⟩, ?_, ?_⟩
    · simp [api.send, hdo, hstatus, he, hempty, String.append_assoc]
    · simp [api.send, hdo, hstatus, he, hempty]
    · simp [api.send, hdo, hstatus, he, hempty]

/-- C3 on the specification's example: status 500 with an empty body gives a text with 500. -/
theorem C3_synthesized_error_witness :
    fmtD 500 = "500"
      ∧ ∃ before after : String,
        ((sampleAPI bearerToken ⟨500, "", none⟩).send sampleEnv sampleUnmarshalRaw
          ⟨"POST", "https://api.livechatinc.com/v3.3/agent/action/list_chats", [], none⟩
          "").err = some (.errorf (before ++ fmtD 500 ++ ", raw body: " ++ "" ++ after)) :=
  ⟨by decide, (C3_synthesized_error (sampleAPI bearerToken ⟨500, "", none⟩) sampleEnv
    sampleUnmarshalRaw
    ⟨"POST", "https://api.livechatinc.com/v3.3/agent/action/list_chats", [], none⟩ ""
    ⟨500, "", none⟩ rfl (by decide) (Or.inl ⟨"unexpected end of JSON input", rfl⟩)).1⟩

/-! ## Claims about headers and the host -/

/-- C4: on a client made by `NewAPI`, after any setter calls, a call `SetCustomHeader(k, v)`
and any later setter calls that do not write the same header again, every request that `Call`
hands to the transport carries `v` as the value of header `k`, whatever the order in which
the custom headers are visited; this holds for every `k`, the names of the generated headers
(Content-Type, Authorization, User-Agent, X-Region, in any letter case) included. -/
theorem C4_custom_header_on_wire {P σ : Type}
    (defaultDo : Request → Except ForeignErr Response) (t : Option (Unit → Option Token))
    (client : Option Client) (clientID : String) (r : HTTPRequestGenerator) (a0 : api)
    (hnew : NewAPI defaultDo t client clientID r = .ok a0) (earlier later : List Setter)
    (k v : String) (hlater : ∀ op ∈ later, op.writes ≠ some (CanonicalMIMEHeaderKey k))
    (env : Env) (M : P → Except ForeignErr Bytes) (U : Decoder σ) (action : String) (p : P)
    (slot : σ) :
    ∀ req ∈ ((((a0.applyAll earlier).SetCustomHeader k v).applyAll later).Call env M U action
        p slot).sent, req.Header.Get k = v := by
  intro req hreq
  have hw0 : a0.customHeaders.WF := by
    rw [(NewAPI_fields defaultDo t client clientID r a0 hnew).2.1]
    exact Header.WF_nil
  have hw1 : ((a0.applyAll earlier).SetCustomHeader k v).customHeaders.WF :=
    Header.WF_Set _ _ _ (api.applyAll_WF earlier a0 hw0)
  have hw := api.applyAll_WF later _ hw1
  have hmem := api.applyAll_mem later (CanonicalMIMEHeaderKey k) [v]
    ((a0.applyAll earlier).SetCustomHeader k v) (Header.mem_Set_self _ k v) hlater
  rcases api.Call_cases (((a0.applyAll earlier).SetCustomHeader k v).applyAll later) env M U
    action p slot with h | ⟨raw, token, r', _, _, _, _, hcall⟩
  · rw [h.1] at hreq
    cases hreq
  · rw [hcall] at hreq
    simp only [(api.send_sent _ env U _ slot).1, List.mem_singleton] at hreq
    subst hreq
    exact callRequest_Get_custom _ env raw token r' k v [] hw hmem

/-- C4 with a custom `user-agent` set between other setter calls: the one request sent
carries the custom value instead of the generated User-Agent. -/
theorem C4_custom_header_on_wire_witness :
    (∀ op ∈ [Setter.host "https://test.local", Setter.header "X-Author-Id" "7"],
        op.writes ≠ some (CanonicalMIMEHeaderKey "user-agent"))
      ∧ (((((sampleAPI bearerToken ⟨200, sampleURLBody, none⟩).applyAll
          [Setter.header "X-Debug-Id" "1"]).SetCustomHeader "user-agent" "mine").applyAll
          [Setter.host "https://test.local", Setter.header "X-Author-Id" "7"]).Call sampleEnv
          sampleMarshal sampleUnmarshalRaw "list_chats" "x" "").sent.length = 1
      ∧ ∀ req ∈ (((((sampleAPI bearerToken ⟨200, sampleURLBody, none⟩).applyAll
          [Setter.header "X-Debug-Id" "1"]).SetCustomHeader "user-agent" "mine").applyAll
          [Setter.host "https://test.local", Setter.header "X-Author-Id" "7"]).Call sampleEnv
          sampleMarshal sampleUnmarshalRaw "list_chats" "x" "").sent,
          req.Header.Get "user-agent" = "mine" :=
  ⟨by decide, by decide,
    C4_custom_header_on_wire (fun _ => .error "offline") (some fun _ => some bearerToken)
      (some (fixedClient ⟨200, sampleURLBody, none⟩)) "demo"
      (DefaultHTTPRequestGenerator sampleEnv "agent")
      (sampleAPI bearerToken ⟨200, sampleURLBody, none⟩) rfl [Setter.header "X-Debug-Id" "1"]
      [Setter.host "https://test.local", Setter.header "X-Author-Id" "7"] "user-agent" "mine"
      (by decide) sampleEnv sampleMarshal sampleUnmarshalRaw "list_chats" "x" ""⟩

/-- C9: for every non-nil token, whatever its type, every request that `UploadFile` hands to
the transport has method POST, Authorization header "Bearer " followed by the access value and
X-Region header equal to the token's region; and once the multipart encoding and the request
generator succeed, exactly one such request is handed over. -/
theorem C9_upload_request_shape (a : fileUploadAPI) (env : Env) (U : Decoder UploadResp)
    (filename : String) (file : Bytes) (token : Token) (htok : a.tokenGetter () = some token) :
    (∀ req ∈ (a.UploadFile env U filename file).sent,
        req.Method = "POST" ∧ req.Header.Get "Authorization" = "Bearer " ++ token.AccessToken
          ∧ req.Header.Get "X-Region" = token.Region)
      ∧ (∀ body contentType r, env.formFile filename file = .done body contentType →
          a.httpRequestGenerator token a.host "upload_file" = .ok r →
          (a.UploadFile env U filename file).sent.length = 1) := by
  refine ⟨?_, ?_⟩
  · intro req hreq
    rcases fileUploadAPI.UploadFile_cases a env U filename file with
      h | ⟨body, ct, token', r, _, htok', _, hsent, _, _, _⟩
    · rw [h.1] at hreq
      cases hreq
    · rw [htok] at htok'
      cases htok'
      rw [hsent, List.mem_singleton] at hreq
      subst hreq
      refine ⟨rfl, ?_, ?_⟩
      · simp only [uploadRequest]
        rw [Header.Get_Set_ne _ _ _ _ (by decide), Header.Get_Set_ne _ _ _ _ (by decide)]
        exact Header.Get_Set_same _ _ _ _ rfl
      · simp only [uploadRequest]
        exact Header.Get_Set_same _ _ _ _ rfl
  · intro body ct r hf hgen
    rcases fileUploadAPI.UploadFile_cases a env U filename file with
      h | ⟨_, _, _, _, _, _, _, hsent, _, _, _⟩
    · exfalso
      have hnil := h.1
      simp [fileUploadAPI.UploadFile, hf, htok, hgen, (api.send_sent _ _ _ _ _).1] at hnil
    · rw [hsent]
      rfl

/-- C9 at a Basic token: one POST request with a Bearer authorization header. -/
theorem C9_upload_request_shape_witness :
    (fileUploadAPI.mk (sampleAPI ⟨"secret", "dal", .BasicToken⟩
        ⟨200, sampleURLBody, none⟩)).tokenGetter () = some ⟨"secret", "dal", .BasicToken⟩
      ∧ ((fileUploadAPI.mk (sampleAPI ⟨"secret", "dal", .BasicToken⟩
          ⟨200, sampleURLBody, none⟩)).UploadFile sampleEnv sampleUnmarshalURL "a.txt"
          "hi").sent.length = 1
      ∧ ∀ req ∈ ((fileUploadAPI.mk (sampleAPI ⟨"secret", "dal", .BasicToken⟩
          ⟨200, sampleURLBody, none⟩)).UploadFile sampleEnv sampleUnmarshalURL "a.txt"
          "hi").sent,
          req.Method = "POST" ∧ req.Header.Get "Authorization" = "Bearer " ++ "secret"
            ∧ req.Header.Get "X-Region" = "dal" :=
  ⟨rfl, by decide,
    (C9_upload_request_shape (fileUploadAPI.mk (sampleAPI ⟨"secret", "dal", .BasicToken⟩
      ⟨200, sampleURLBody, none⟩)) sampleEnv sampleUnmarshalURL "a.txt" "hi"
      ⟨"secret", "dal", .BasicToken⟩ rfl).1⟩

/-- C5, as stated, fails: on a 200 response whose body has a string `url` member followed
by a numeric one, the decoder stores the string and returns a type error, and `UploadFile`
returns that error together with the non-empty string. -/
theorem C5_decode_error_with_nonempty_url :
    ((fileUploadAPI.mk (sampleAPI bearerToken ⟨200, sampleDuplicateURLBody, none⟩)).UploadFile
        sampleEnv sampleUnmarshalURL "a.txt" "hi").err
        = some (.foreign "json: cannot unmarshal number into Go struct field .url of type string")
      ∧ ((fileUploadAPI.mk (sampleAPI bearerToken ⟨200, sampleDuplicateURLBody, none⟩)).UploadFile
          sampleEnv sampleUnmarshalURL "a.txt" "hi").out = "a"
      ∧ ¬(((fileUploadAPI.mk (sampleAPI bearerToken
            ⟨200, sampleDuplicateURLBody, none⟩)).UploadFile sampleEnv sampleUnmarshalURL
            "a.txt" "hi").err ≠ none →
          ((fileUploadAPI.mk (sampleAPI bearerToken
            ⟨200, sampleDuplicateURLBody, none⟩)).UploadFile sampleEnv sampleUnmarshalURL
            "a.txt" "hi").out = "") := by
  decide

/-- C5, amended: `UploadFile` returns the empty string with a non-nil error when it stops
before the transport, when the transport fails (that error), when the status is not 200, and
when reading a 200 body fails (that error); on a 200 body that was read it returns the `url`
field as the decoder leaves it in a fresh response struct together with the decoder's error,
so the decoded locator and nil on success, and on a decode failure the decoder's error with
an empty string exactly when the decoder left the field empty. -/
theorem C5_upload_result (a : fileUploadAPI) (env : Env) (U : Decoder UploadResp)
    (filename : String) (file : Bytes) :
    ((a.UploadFile env U filename file).sent = [] →
        (a.UploadFile env U filename file).err ≠ none
          ∧ (a.UploadFile env U filename file).out = "")
      ∧ ∀ req ∈ (a.UploadFile env U filename file).sent,
        (∀ e, a.httpClient.Do req = .error e →
            (a.UploadFile env U filename file).err = some (.foreign e)
              ∧ (a.UploadFile env U filename file).out = "")
        ∧ (∀ resp, a.httpClient.Do req = .ok resp →
            (resp.StatusCode ≠ 200 →
                (a.UploadFile env U filename file).err ≠ none
                  ∧ (a.UploadFile env U filename file).out = "")
            ∧ (resp.StatusCode = 200 → ∀ e, resp.ReadErr = some e →
                (a.UploadFile env U filename file).err = some (.foreign e)
                  ∧ (a.UploadFile env U filename file).out = "")
            ∧ (resp.StatusCode = 200 → resp.ReadErr = none →
                (a.UploadFile env U filename file).err
                    = (U resp.Body ⟨""⟩).2.map Error.foreign
                  ∧ (a.UploadFile env U filename file).out = (U resp.Body ⟨""⟩).1.URL)) := by
  rcases fileUploadAPI.UploadFile_cases a env U filename file with
    h | ⟨body, ct, token, r, _, _, _, hsent, _, herr, hout⟩
  · refine ⟨fun _ => h.2, ?_⟩
    intro req hreq
    rw [h.1] at hreq
    cases hreq
  · refine ⟨fun hnil => ?_, ?_⟩
    · rw [hsent] at hnil
      cases hnil
    · intro req hreq
      rw [hsent, List.mem_singleton] at hreq
      subst hreq
      rw [herr, hout]
      refine ⟨?_, ?_⟩
      · intro e hdo
        obtain ⟨h1, h2⟩ := api.send_of_transport_error a.toapi env U _ ⟨""⟩ e hdo
        rw [h1, h2]
        exact ⟨rfl, rfl⟩
      · intro resp hdo
        obtain ⟨h1, h2, h3⟩ := api.send_of_response a.toapi env U _ ⟨""⟩ resp hdo
        refine ⟨?_, ?_, ?_⟩
        · intro hs
          obtain ⟨g1, g2, _⟩ := h1 hs
          rw [g2]
          exact ⟨g1, rfl⟩
        · intro hs e he
          obtain ⟨g1, g2⟩ := h2 hs e he
          rw [g1, g2]
          exact ⟨rfl, rfl⟩
        · intro hs he
          obtain ⟨g1, g2⟩ := h3 hs he
          rw [g1, g2]
          exact ⟨rfl, rfl⟩

/-- C6 fails for a status other than 200: on a 500 response whose body read ends with the
error `unexpected EOF`, `send` returns the error synthesized from the bytes read so far and
not the read error; on a 200 response with the same read failure it returns the read error.
For no status other than 200 is the error returned by `send` one received from a collaborator. -/
theorem C6_read_error_dropped_on_non_200 :
    ((sampleAPI bearerToken ⟨500, "", some "unexpected EOF"⟩).send sampleEnv
        sampleUnmarshalRaw sampleRequest "").err
        = some (.errorf ("couldn't unmarshal error response: unexpected end of JSON input"
            ++ " (code: 500, raw body: )"))
      ∧ ((sampleAPI bearerToken ⟨500, "", some "unexpected EOF"⟩).send sampleEnv
          sampleUnmarshalRaw sampleRequest "").err ≠ some (.foreign "unexpected EOF")
      ∧ ((sampleAPI bearerToken ⟨400, sampleErrBody, some "unexpected EOF"⟩).send sampleEnv
          sampleUnmarshalRaw sampleRequest "").err
          = some (.api ⟨"invalid_request", "bad payload"⟩)
      ∧ ((sampleAPI bearerToken ⟨200, "", some "unexpected EOF"⟩).send sampleEnv
          sampleUnmarshalRaw sampleRequest "").err = some (.foreign "unexpected EOF")
      ∧ (∀ (a : api) (env : Env) (req : Request) (resp : Response),
          a.httpClient.Do req = .ok resp → resp.StatusCode ≠ 200 →
          ∀ e, (a.send env sampleUnmarshalRaw req "").err ≠ some (.foreign e)) := by
  refine ⟨by decide, by decide, by decide, by decide, ?_⟩
  intro a env req resp hdo hs e
  exact (api.send_of_response a env sampleUnmarshalRaw req "" resp hdo).1 hs |>.2.2 e

/-- C7 fails for `UploadFile`: after `SetCustomHeader("X-Debug-Id", "42")` the request of
`Call` carries the header, while the one request `UploadFile` hands to the transport on the
same client has no such header.  No call of `SetCustomHeader` changes what `UploadFile`
hands to the transport. -/
theorem C7_upload_omits_custom_header :
    (sampleDebugAPI.Call sampleEnv sampleMarshal sampleUnmarshalRaw "list_chats" "x"
        "").sent.map (fun req => req.Header.Get "X-Debug-Id") = ["42"]
      ∧ ((fileUploadAPI.mk sampleDebugAPI).UploadFile sampleEnv sampleUnmarshalURL "a.txt"
          "hi").sent.map (fun req => req.Header.lookup "X-Debug-Id") = [none]
      ∧ ((fileUploadAPI.mk sampleDebugAPI).UploadFile sampleEnv sampleUnmarshalURL "a.txt"
          "hi").sent.map (fun req => req.Header.Get "X-Debug-Id") = [""]
      ∧ ((fileUploadAPI.mk sampleDebugAPI).UploadFile sampleEnv sampleUnmarshalURL "a.txt"
          "hi").err = none
      ∧ (∀ (a : api) (key val : String) (env : Env) (U : Decoder UploadResp)
          (filename : String) (file : Bytes),
          ((fileUploadAPI.mk (a.SetCustomHeader key val)).UploadFile env U filename file).sent
            = ((fileUploadAPI.mk a).UploadFile env U filename file).sent) := by
  refine ⟨by decide, by decide, by decide, by decide, ?_⟩
  intro a key val env U filename file
  rfl

/-- C8 fails for `UploadFile`: with a token of type MAC, which `Call` rejects, `UploadFile`
hands one request with a Bearer authorization header to the transport and returns the
locator with a nil error. -/
theorem C8_upload_accepts_unsupported_token :
    macToken.Typ ≠ .BearerToken ∧ macToken.Typ ≠ .BasicToken
      ∧ ((fileUploadAPI.mk (sampleAPI macToken ⟨200, sampleURLBody, none⟩)).UploadFile
          sampleEnv sampleUnmarshalURL "a.txt" "hi").sent.map
          (fun req => req.Header.Get "Authorization") = ["Bearer secret"]
      ∧ ((fileUploadAPI.mk (sampleAPI macToken ⟨200, sampleURLBody, none⟩)).UploadFile
          sampleEnv sampleUnmarshalURL "a.txt" "hi").err = none
      ∧ ((fileUploadAPI.mk (sampleAPI macToken ⟨200, sampleURLBody, none⟩)).UploadFile
          sampleEnv sampleUnmarshalURL "a.txt" "hi").out = "https://cdn.example/x"
      ∧ ((sampleAPI macToken ⟨200, sampleURLBody, none⟩).Call sampleEnv sampleMarshal
          sampleUnmarshalRaw "upload_file" "x" "").sent = [] := by
  decide

/-- C5 on the specification's examples: status 200 with the `url` body gives exactly that
locator and no error; status 403 gives the empty string and an error. -/
theorem C5_upload_result_witness :
    ((fileUploadAPI.mk (sampleAPI bearerToken ⟨200, sampleURLBody, none⟩)).UploadFile
        sampleEnv sampleUnmarshalURL "a.txt" "hi").err = none
      ∧ ((fileUploadAPI.mk (sampleAPI bearerToken ⟨200, sampleURLBody, none⟩)).UploadFile
          sampleEnv sampleUnmarshalURL "a.txt" "hi").out = "https://cdn.example/x"
      ∧ ((fileUploadAPI.mk (sampleAPI bearerToken ⟨403, "", none⟩)).UploadFile
          sampleEnv sampleUnmarshalURL "a.txt" "hi").err ≠ none
      ∧ ((fileUploadAPI.mk (sampleAPI bearerToken ⟨403, "", none⟩)).UploadFile
          sampleEnv sampleUnmarshalURL "a.txt" "hi").out = "" := by
  have hok := ((C5_upload_result (fileUploadAPI.mk (sampleAPI bearerToken
    ⟨200, sampleURLBody, none⟩)) sampleEnv sampleUnmarshalURL "a.txt" "hi").2
    (uploadRequest (sampleAPI bearerToken ⟨200, sampleURLBody, none⟩)
      "--b\r\nContent-Disposition: form-data; name=\"file\"; filename=\"a.txt\"\r\n\r\nhi\r\n--b--\r\n"
      "multipart/form-data; boundary=b" bearerToken
      ⟨"POST", "https://api.livechatinc.com/v3.3/agent/action/upload_file", [], none⟩)
    (by decide)).2 ⟨200, sampleURLBody, none⟩ rfl
  have hbad := ((C5_upload_result (fileUploadAPI.mk (sampleAPI bearerToken
    ⟨403, "", none⟩)) sampleEnv sampleUnmarshalURL "a.txt" "hi").2
    (uploadRequest (sampleAPI bearerToken ⟨403, "", none⟩)
      "--b\r\nContent-Disposition: form-data; name=\"file\"; filename=\"a.txt\"\r\n\r\nhi\r\n--b--\r\n"
      "multipart/form-data; boundary=b" bearerToken
      ⟨"POST", "https://api.livechatinc.com/v3.3/agent/action/upload_file", [], none⟩)
    (by decide)).2 ⟨403, "", none⟩ rfl
  obtain ⟨e1, e2⟩ := hok.2.2 rfl rfl
  obtain ⟨e3, e4⟩ := hbad.1 (by decide)
  exact ⟨e1, e2, e3, e4⟩

end LcSdk
